import Mathlib

/-!
Verification of the Antarctic-Mystery-Validator validation engine.

The definitions below are a shallow embedding of the Python sources in
`mystery_validator/` (models.py, validators.py and the validators package).
Python dictionaries keyed by character name are modelled as `List Character`
(the dict's values in insertion order); the loader (`load_characters`) keys the
dict by `Character.name` and skips duplicate names, so the key set is exactly
the list of names and is duplicate-free, which theorems take as the
`(characters.map Character.name).Nodup` hypothesis where they need it.
Python integers are `Int`; optional fields are `Option`; Python truthiness of
an optional string (`None` and `""` are falsy) is `optStrTrue`.  Validator
detail strings are modelled as structured issue values carrying exactly the
data interpolated into the corresponding Python f-string.
-/

namespace MysteryValidator

/-- Python truthiness of an `Optional[str]` value: `None` and `""` are falsy. -/
def optStrTrue : Option String → Bool
  | some s => s ≠ ""
  | none => false

/-- `models.py` `Character`. -/
structure Character where
  name : String
  role : String
  nationality : String
  build : String
  cause_of_death : Option String
  killer : Option String
  death_scene : Option Int
deriving DecidableEq

/-- `models.py` `Character.is_dead`: death_scene is present and > 0. -/
def Character.is_dead (c : Character) : Bool :=
  match c.death_scene with
  | some d => 0 < d
  | none => false

/-- `models.py` `SceneEvidence`. -/
structure SceneEvidence where
  character_name : String
  scene_number : Int
  dies_in_this_scene : Bool
  uniform_visible : Bool
  holding_something_distinctive : Bool
  held_item_description : Option String
  distinctive_features_visible : Bool
  distinctive_features_description : Option String
  body_position_relevant : Bool
  body_position_description : Option String
  accent_audible : Bool
  name_mentioned_in_dialogue : Bool
  relationship_mentioned : Bool
  relationship_description : Option String
  role_mentioned : Bool
  role_behaviour_visible : Bool
  spatial_relationship_visible : Bool
  spatial_relationship_description : Option String
  environmental_context_relevant : Bool
  environmental_context_description : Option String
  additional_visual_clues : Option String
  additional_dialogue_clues : Option String
  additional_contextual_clues : Option String
deriving DecidableEq

/-- An all-false evidence record for building concrete test data. -/
def blankEvidence (nm : String) (scene : Int) : SceneEvidence :=
  { character_name := nm, scene_number := scene, dies_in_this_scene := false,
    uniform_visible := false, holding_something_distinctive := false,
    held_item_description := none, distinctive_features_visible := false,
    distinctive_features_description := none, body_position_relevant := false,
    body_position_description := none, accent_audible := false,
    name_mentioned_in_dialogue := false, relationship_mentioned := false,
    relationship_description := none, role_mentioned := false,
    role_behaviour_visible := false, spatial_relationship_visible := false,
    spatial_relationship_description := none,
    environmental_context_relevant := false,
    environmental_context_description := none, additional_visual_clues := none,
    additional_dialogue_clues := none, additional_contextual_clues := none }

/-- A character record with empty descriptive fields, for concrete test data. -/
def mkCharacter (nm : String) (killer : Option String) (death_scene : Option Int) :
    Character :=
  { name := nm, role := "", nationality := "", build := "",
    cause_of_death := none, killer := killer, death_scene := death_scene }

/-! ## Basic validators (`validators.py`) -/

/-- Per-character body of the loop in `check_every_death_has_a_scene`
(`validators.py` lines 35-61): a dead character contributes no violation iff
its death scene number occurs in the evidence, its list of
`dies_in_this_scene` records is non-empty, and the first such record's
`scene_number` equals `death_scene`.  Characters that are not dead are
skipped. -/
def deathSceneOkFor (scene_evidence : List SceneEvidence) (c : Character) : Bool :=
  match c.death_scene with
  | none => true
  | some death_scene =>
    if death_scene ≤ 0 then true
    else
      let scene_known := scene_evidence.any fun ev => ev.scene_number == death_scene
      let death_evidence := scene_evidence.filter fun ev =>
        ev.character_name == c.name && ev.dies_in_this_scene
      let death_ok :=
        match death_evidence with
        | [] => false
        | ev0 :: _ => ev0.scene_number == death_scene
      scene_known && death_ok

/-- `validators.py` `check_every_death_has_a_scene`, `passed` component: true
iff no dead character produced a violation. -/
def check_every_death_has_a_scene (characters : List Character)
    (scene_evidence : List SceneEvidence) : Bool :=
  characters.all (deathSceneOkFor scene_evidence)

/-- `validators.py` `check_scenes_have_characters`: the grouping loop, building
an association list from scene_number to the names appended for that scene. -/
def scenesByNumber (scene_evidence : List SceneEvidence) :
    List (Int × List String) :=
  scene_evidence.foldl
    (fun acc ev =>
      if acc.any fun p => p.1 == ev.scene_number then
        acc.map fun p =>
          if p.1 == ev.scene_number then (p.1, p.2 ++ [ev.character_name]) else p
      else acc ++ [(ev.scene_number, [ev.character_name])])
    []

/-- `validators.py` `check_scenes_have_characters`, `passed` component: fails
iff some grouped scene has an empty character list. -/
def check_scenes_have_characters (scene_evidence : List SceneEvidence) : Bool :=
  let empty_scenes := (scenesByNumber scene_evidence).filter fun p => p.2.isEmpty
  empty_scenes.isEmpty

/-! ## Timeline validator (`validators/timeline.py`) -/

/-- The two issue classes `check_timeline_consistency` can append, carrying the
data interpolated into the corresponding f-string: `ghost name scene death`
is "GHOST: {name} appears in scene {scene} but died in scene {death}";
`killerAbsent killer victim death` is "TIMELINE ERROR: {killer} killed
{victim} in scene {death} but killer was not present in that scene". -/
inductive TimelineIssue where
  | ghost (name : String) (scene : Int) (death : Int)
  | killerAbsent (killer : String) (victim : String) (death : Int)
deriving DecidableEq

/-- `timeline.py` lines 26-37: GHOST issues appended for one dead character
with death scene `death_scene` — one per evidence record of that character
with `scene_number > death_scene` and `dies_in_this_scene` false. -/
def ghostIssuesFor (c : Character) (death_scene : Int)
    (scene_evidence : List SceneEvidence) : List TimelineIssue :=
  (scene_evidence.filter fun ev => ev.character_name == c.name).filterMap
    fun ev =>
      if death_scene < ev.scene_number ∧ ev.dies_in_this_scene = false then
        some (TimelineIssue.ghost c.name ev.scene_number death_scene)
      else none

/-- `timeline.py` lines 39-50: the killer-presence check for one dead
character.  `character.killer and character.killer != "Accident"` is Python
truthiness: the killer must be present and a non-empty string different from
"Accident" (note: only "Accident" is excluded here, not "Self-inflicted").
The issue is appended only when the killer is absent from the death scene AND
the killer name is a key of the character dict (a character name). -/
def killerIssuesFor (characters : List Character) (c : Character)
    (death_scene : Int) (scene_evidence : List SceneEvidence) :
    List TimelineIssue :=
  match c.killer with
  | none => []
  | some k =>
    if k ≠ "" ∧ k ≠ "Accident" then
      let killer_at_death_scene := scene_evidence.any fun ev =>
        ev.character_name == k && ev.scene_number == death_scene
      if killer_at_death_scene = false ∧ characters.any fun ch => ch.name == k then
        [TimelineIssue.killerAbsent k c.name death_scene]
      else []
    else []

/-- `timeline.py` loop body for one character: characters that are not dead
are skipped; dead characters contribute their ghost issues followed by their
killer-absence issues. -/
def timelineIssuesFor (characters : List Character)
    (scene_evidence : List SceneEvidence) (c : Character) : List TimelineIssue :=
  if c.is_dead then
    match c.death_scene with
    | none => []
    | some death_scene =>
      ghostIssuesFor c death_scene scene_evidence ++
        killerIssuesFor characters c death_scene scene_evidence
  else []

/-- `timeline.py` `check_timeline_consistency`: accumulated issues in loop
order, and `passed` iff the issue list is empty. -/
def check_timeline_consistency (characters : List Character)
    (scene_evidence : List SceneEvidence) : Bool × List TimelineIssue :=
  let issues := (characters.map (timelineIssuesFor characters scene_evidence)).flatten
  (issues.isEmpty, issues)

/-! ## Character analysis (`validators/character_analysis.py`) -/

/-- `1` if the flag is set else `0`, mirroring Python's `+= 1` under an `if`. -/
def countBool (b : Bool) : Int := if b then 1 else 0

/-- `character_analysis.py` lines 50-65: visual-clue increments contributed by
one evidence record. -/
def visualCluesOf (ev : SceneEvidence) : Int :=
  countBool ev.uniform_visible + countBool ev.holding_something_distinctive +
    countBool ev.distinctive_features_visible +
    countBool ev.body_position_relevant +
    countBool (optStrTrue ev.additional_visual_clues)

/-- `character_analysis.py` lines 67-76: dialogue-clue increments contributed
by one evidence record. -/
def dialogueCluesOf (ev : SceneEvidence) : Int :=
  countBool ev.accent_audible + countBool ev.name_mentioned_in_dialogue +
    countBool (optStrTrue ev.additional_dialogue_clues)

/-- `character_analysis.py` lines 78-87: contextual-clue increments
contributed by one evidence record. -/
def contextualCluesOf (ev : SceneEvidence) : Int :=
  countBool ev.environmental_context_relevant +
    countBool ev.spatial_relationship_visible +
    countBool (optStrTrue ev.additional_contextual_clues)

/-- `character_analysis.py` lines 89-92: relationship-clue increments
contributed by one evidence record. -/
def relationshipCluesOf (ev : SceneEvidence) : Int :=
  countBool ev.relationship_mentioned

/-- `character_analysis.py` lines 94-100: role-clue increments contributed by
one evidence record. -/
def roleCluesOf (ev : SceneEvidence) : Int :=
  countBool ev.role_mentioned + countBool ev.role_behaviour_visible

/-- `has_clue_in_scene` for one record: some of the fourteen clue signals
fired. -/
def hasClueInScene (ev : SceneEvidence) : Bool :=
  ev.uniform_visible || ev.holding_something_distinctive ||
    ev.distinctive_features_visible || ev.body_position_relevant ||
    optStrTrue ev.additional_visual_clues || ev.accent_audible ||
    ev.name_mentioned_in_dialogue || optStrTrue ev.additional_dialogue_clues ||
    ev.environmental_context_relevant || ev.spatial_relationship_visible ||
    optStrTrue ev.additional_contextual_clues || ev.relationship_mentioned ||
    ev.role_mentioned || ev.role_behaviour_visible

/-- The five per-category counters of the first pass of
`analyze_clues_per_character`, i.e. the `clue_types` dict of one character. -/
structure ClueTypes where
  visual : Int
  dialogue : Int
  contextual : Int
  relationship : Int
  role : Int
deriving DecidableEq

/-- First pass of `analyze_clues_per_character` for one character name: sum
each category's increments over the character's evidence records. -/
def clueTypesFor (nm : String) (scene_evidence : List SceneEvidence) : ClueTypes :=
  let char_evidence := scene_evidence.filter fun ev => ev.character_name == nm
  { visual := (char_evidence.map visualCluesOf).sum,
    dialogue := (char_evidence.map dialogueCluesOf).sum,
    contextual := (char_evidence.map contextualCluesOf).sum,
    relationship := (char_evidence.map relationshipCluesOf).sum,
    role := (char_evidence.map roleCluesOf).sum }

/-- `total_clues` of one character: the sum of the five category counters. -/
def totalCluesFor (nm : String) (scene_evidence : List SceneEvidence) : Int :=
  let t := clueTypesFor nm scene_evidence
  t.visual + t.dialogue + t.contextual + t.relationship + t.role

/-- `scenes_with_clues` of one character: the number of distinct scene numbers
among the character's records in which some clue fired. -/
def scenesWithCluesFor (nm : String) (scene_evidence : List SceneEvidence) : Nat :=
  (((scene_evidence.filter fun ev => ev.character_name == nm).filter
      hasClueInScene).map (fun ev => ev.scene_number)).dedup.length

/-- Python list indexing `l[i]` for `i : Int`, as used by
`_calculate_difficulty_thresholds`: a non-negative index reads from the
front, a negative index reads from the back, and `none` models the
`IndexError` raised when the index is out of range either way. -/
def pyGet (l : List Int) (i : Int) : Option Int :=
  if 0 ≤ i then l.get? i.toNat
  else if 0 ≤ i + l.length then l.get? (i + l.length).toNat
  else none

/-- The four quintile thresholds returned by
`_calculate_difficulty_thresholds`. -/
structure Thresholds where
  hard_min : Int
  medium_min : Int
  easy_min : Int
  very_easy_min : Int
deriving DecidableEq

/-- `character_analysis.py` `_calculate_difficulty_thresholds`: sort the clue
counts ascending, set `quintile_size = n // 5`, clamp the four boundary
indices `quintile_size * k` to at most `n - 1`, and read the sorted values at
those indices.  `none` models the `IndexError` Python raises on an empty
input, where every clamped index is `min 0 (0 - 1) = -1`. -/
def calculate_difficulty_thresholds (all_clue_counts : List Int) :
    Option Thresholds :=
  let sorted_counts := all_clue_counts.mergeSort fun a b => decide (a ≤ b)
  let n : Int := sorted_counts.length
  let quintile_size : Int := n / 5
  let idx_20 := min quintile_size (n - 1)
  let idx_40 := min (quintile_size * 2) (n - 1)
  let idx_60 := min (quintile_size * 3) (n - 1)
  let idx_80 := min (quintile_size * 4) (n - 1)
  match pyGet sorted_counts idx_20, pyGet sorted_counts idx_40,
      pyGet sorted_counts idx_60, pyGet sorted_counts idx_80 with
  | some h, some m, some e, some v =>
    some { hard_min := h, medium_min := m, easy_min := e, very_easy_min := v }
  | _, _, _, _ => none

/-- `character_analysis.py` `_calculate_difficulty`: compare against the four
thresholds from the easiest side down, with `>=`. -/
def calculate_difficulty (clue_count : Int) (t : Thresholds) : String :=
  if t.very_easy_min ≤ clue_count then "VERY EASY"
  else if t.easy_min ≤ clue_count then "EASY"
  else if t.medium_min ≤ clue_count then "MEDIUM"
  else if t.hard_min ≤ clue_count then "HARD"
  else "VERY HARD"

/-- One character's entry in the `analyze_clues_per_character` result dict. -/
structure CharAnalysis where
  total_clues : Int
  clue_types : ClueTypes
  scenes_with_clues : Nat
  difficulty : String
deriving DecidableEq

/-- `character_analysis.py` `analyze_clues_per_character`: first pass builds
the per-character counts (one `all_clue_counts` entry per character, in dict
order), then the thresholds are computed and, in the second pass, each
character's difficulty label is assigned.  `none` models the `IndexError`
propagated out of `_calculate_difficulty_thresholds` on an empty character
dict. -/
def analyze_clues_per_character (characters : List Character)
    (scene_evidence : List SceneEvidence) :
    Option (List (String × CharAnalysis)) :=
  match calculate_difficulty_thresholds
      (characters.map fun c => totalCluesFor c.name scene_evidence) with
  | none => none
  | some t =>
    some (characters.map fun c =>
      (c.name,
        { total_clues := totalCluesFor c.name scene_evidence,
          clue_types := clueTypesFor c.name scene_evidence,
          scenes_with_clues := scenesWithCluesFor c.name scene_evidence,
          difficulty := calculate_difficulty (totalCluesFor c.name scene_evidence) t }))

/-! ## Game-balance validators (`validators/game_balance.py`)

The percentage comparisons in this module are written in Python with float
literals (`total * 0.15`, `total * 0.8`, `total * 0.2`).  They are embedded
here as the exact rational comparisons `20 * x > 3 * total`,
`5 * x > 4 * total` and `5 * x < total`: for counts of list lengths (far
below `2^49`) the rounding error of the double literals (relative error
about `4e-17`) is too small to move the product across the integer the other
operand is, so the float comparison and the exact comparison agree. -/

/-- The five difficulty buckets produced by `analyze_character_difficulty`:
the argument of `check_difficulty_balance`, whose `values()` are exactly
these five lists. -/
structure DifficultyGroups where
  very_easy : List String
  easy : List String
  medium : List String
  hard : List String
  very_hard : List String
deriving DecidableEq

/-- The two hard-error classes `check_difficulty_balance` can append to
`issues`. -/
inductive BalanceIssue where
  | noEntryPoints
  | tooManyVeryHard (very_hard_count : Nat)
deriving DecidableEq

/-- The two warning classes `check_difficulty_balance` can append to
`warnings`. -/
inductive BalanceWarning where
  | fewEntryPoints (entry_points : Nat)
  | fewMedium (medium_count : Nat)
deriving DecidableEq

/-- `game_balance.py` `check_difficulty_balance`: `passed`, the hard-error
list and the warning list.  `passed` is `issues.length == 0`; the report
string is the distribution header followed by the issues then the
warnings. -/
def check_difficulty_balance (g : DifficultyGroups) :
    Bool × List BalanceIssue × List BalanceWarning :=
  let total := g.very_easy.length + g.easy.length + g.medium.length +
    g.hard.length + g.very_hard.length
  let very_hard_count := g.very_hard.length
  let medium_count := g.medium.length
  let entry_points := g.very_easy.length + g.easy.length
  let issues :=
    (if entry_points = 0 then [BalanceIssue.noEntryPoints] else []) ++
    (if 20 * very_hard_count > 3 * total then
      [BalanceIssue.tooManyVeryHard very_hard_count] else [])
  let warnings :=
    (if entry_points < 5 then [BalanceWarning.fewEntryPoints entry_points] else []) ++
    (if 5 * medium_count < total then [BalanceWarning.fewMedium medium_count] else [])
  (issues.isEmpty, issues, warnings)

/-- `clue_types.items()` of a character analysis entry, in the insertion
order of the `clue_types` dict built in `analyze_clues_per_character`. -/
def clueTypeItems (t : ClueTypes) : List (String × Int) :=
  [("visual", t.visual), ("dialogue", t.dialogue), ("contextual", t.contextual),
    ("relationship", t.relationship), ("role", t.role)]

/-- One comparison step of Python `max(items, key=lambda x: x[1])`: a later
item replaces the running maximum only when strictly greater. -/
def maxStep (acc : Option (String × Int)) (p : String × Int) :
    Option (String × Int) :=
  match acc with
  | none => some p
  | some q => if q.2 < p.2 then some p else some q

/-- Python `max(items, key=lambda x: x[1])`: the first item whose second
component is maximal. -/
def maxByCount (items : List (String × Int)) : Option (String × Int) :=
  items.foldl maxStep none

/-- One entry of the `unbalanced_characters` list of
`check_clue_type_diversity`, carrying the data of the flag string
"{character_name}: {max_count}/{total} clues are {max_type_name}". -/
structure UnbalancedFlag where
  character_name : String
  max_count : Int
  total : Int
  max_type_name : String
deriving DecidableEq

/-- `game_balance.py` `check_clue_type_diversity` loop body for one entry of
the clue-analysis dict: entries with `total_clues == 0` are skipped; an
unbalanced flag is produced when the dominating category exceeds 80% of the
total and the total is at least 5. -/
def unbalancedFlagFor (p : String × CharAnalysis) : Option UnbalancedFlag :=
  let total := p.2.total_clues
  if total = 0 then none
  else
    match maxByCount (clueTypeItems p.2.clue_types) with
    | none => none
    | some mx =>
      if 5 * mx.2 > 4 * total ∧ 5 ≤ total then
        some { character_name := p.1, max_count := mx.2, total := total,
               max_type_name := mx.1 }
      else none

/-- `game_balance.py` `check_clue_type_diversity`: `passed` together with the
`unbalanced_characters` list.  The `issues` list of the source is never
appended to, so `passed` is `[].length == 0`. -/
def check_clue_type_diversity (clue_analysis : List (String × CharAnalysis)) :
    Bool × List UnbalancedFlag :=
  let issues : List String := []
  let unbalanced_characters := clue_analysis.filterMap unbalancedFlagFor
  (issues.isEmpty, unbalanced_characters)

/-- The three failure categories `check_death_attribution_completeness` can
append, each carrying the list of character names joined into its message. -/
inductive AttributionIssue where
  | missingCause (names : List String)
  | missingKiller (names : List String)
  | missingScene (names : List String)
deriving DecidableEq

/-- Python truthiness of `not s or not s.strip()` for an optional string:
true when the value is absent, empty, or whitespace-only. -/
def blankOpt (s : Option String) : Bool :=
  match s with
  | none => true
  | some t => t == "" || t.trim == ""

/-- `game_balance.py` `check_death_attribution_completeness`: dead characters
with a missing/blank `cause_of_death`. -/
def missingCauseNames (characters : List Character) : List String :=
  ((characters.filter Character.is_dead).filter fun c =>
    blankOpt c.cause_of_death).map Character.name

/-- `game_balance.py` `check_death_attribution_completeness`: dead characters
with a missing/blank `killer`. -/
def missingKillerNames (characters : List Character) : List String :=
  ((characters.filter Character.is_dead).filter fun c =>
    blankOpt c.killer).map Character.name

/-- `game_balance.py` `check_death_attribution_completeness`: dead characters
whose `death_scene` is `None`. -/
def missingSceneNames (characters : List Character) : List String :=
  ((characters.filter Character.is_dead).filter fun c =>
    c.death_scene == none).map Character.name

/-- `game_balance.py` `check_death_attribution_completeness`: `passed` and
the issue list, one entry per non-empty missing-name category, in source
order (cause, killer, scene). -/
def check_death_attribution_completeness (characters : List Character) :
    Bool × List AttributionIssue :=
  let issues :=
    (if missingCauseNames characters ≠ [] then
      [AttributionIssue.missingCause (missingCauseNames characters)] else []) ++
    (if missingKillerNames characters ≠ [] then
      [AttributionIssue.missingKiller (missingKillerNames characters)] else []) ++
    (if missingSceneNames characters ≠ [] then
      [AttributionIssue.missingScene (missingSceneNames characters)] else [])
  (issues.isEmpty, issues)

/-! ## Lemmas about the quintile threshold computation -/

theorem pyGet_eq_of_lt (l : List Int) (i : Nat) (h : i < l.length) :
    pyGet l (i : Int) = some (l.getD i 0) := by
  have h0 : (0 : Int) ≤ (i : Int) := Int.ofNat_nonneg i
  simp only [pyGet, if_pos h0, Int.toNat_natCast, List.get?_eq_getElem?,
    List.getElem?_eq_getElem h, List.getD_eq_getElem l 0 h]

/-- The spec's description of `_calculate_difficulty_thresholds`: with `n`
clue counts sorted ascending and `quintile_size = n / 5`, the four returned
thresholds are the sorted values at indices `1×, 2×, 3×, 4× quintile_size`,
each clamped to at most `n - 1`. -/
def quintileThresholdSpec (counts : List Int) : Prop :=
  calculate_difficulty_thresholds counts =
    some { hard_min := (counts.mergeSort fun a b => decide (a ≤ b)).getD
             (min (counts.length / 5) (counts.length - 1)) 0,
           medium_min := (counts.mergeSort fun a b => decide (a ≤ b)).getD
             (min (counts.length / 5 * 2) (counts.length - 1)) 0,
           easy_min := (counts.mergeSort fun a b => decide (a ≤ b)).getD
             (min (counts.length / 5 * 3) (counts.length - 1)) 0,
           very_easy_min := (counts.mergeSort fun a b => decide (a ≤ b)).getD
             (min (counts.length / 5 * 4) (counts.length - 1)) 0 }

theorem calculate_difficulty_thresholds_eq (counts : List Int)
    (h : counts ≠ []) : quintileThresholdSpec counts := by
  have hlen : (counts.mergeSort fun a b => decide (a ≤ b)).length = counts.length :=
    List.length_mergeSort counts
  have hL : 1 ≤ counts.length := List.length_pos.mpr h
  unfold quintileThresholdSpec calculate_difficulty_thresholds
  set s := counts.mergeSort fun a b => decide (a ≤ b) with hs
  have e1 : min ((s.length : Int) / 5) ((s.length : Int) - 1) =
      ((min (counts.length / 5) (counts.length - 1) : Nat) : Int) := by omega
  have e2 : min ((s.length : Int) / 5 * 2) ((s.length : Int) - 1) =
      ((min (counts.length / 5 * 2) (counts.length - 1) : Nat) : Int) := by omega
  have e3 : min ((s.length : Int) / 5 * 3) ((s.length : Int) - 1) =
      ((min (counts.length / 5 * 3) (counts.length - 1) : Nat) : Int) := by omega
  have e4 : min ((s.length : Int) / 5 * 4) ((s.length : Int) - 1) =
      ((min (counts.length / 5 * 4) (counts.length - 1) : Nat) : Int) := by omega
  simp only [e1, e2, e3, e4]
  rw [pyGet_eq_of_lt s _ (by omega), pyGet_eq_of_lt s _ (by omega),
    pyGet_eq_of_lt s _ (by omega), pyGet_eq_of_lt s _ (by omega)]

theorem calculate_difficulty_thresholds_nil :
    calculate_difficulty_thresholds [] = none := by
  unfold calculate_difficulty_thresholds
  rw [List.mergeSort_nil]
  rfl

theorem calculate_difficulty_thresholds_ten :
    calculate_difficulty_thresholds [1, 2, 3, 4, 5, 6, 7, 8, 9, 10] =
      some { hard_min := 3, medium_min := 5, easy_min := 7, very_easy_min := 9 } := by
  unfold calculate_difficulty_thresholds
  rw [List.mergeSort_of_sorted (by decide)]
  rfl

theorem mergeSort_getD_mono (counts : List Int) (i j : Nat) (hij : i ≤ j)
    (hj : j < counts.length) :
    (counts.mergeSort fun a b => decide (a ≤ b)).getD i 0 ≤
      (counts.mergeSort fun a b => decide (a ≤ b)).getD j 0 := by
  set s := counts.mergeSort fun a b => decide (a ≤ b) with hs
  have hlen : s.length = counts.length := List.length_mergeSort counts
  have htrans : ∀ (a b c : Int), decide (a ≤ b) = true → decide (b ≤ c) = true →
      decide (a ≤ c) = true := by
    intro a b c h1 h2
    simp only [decide_eq_true_eq] at *
    omega
  have htotal : ∀ (a b : Int), (decide (a ≤ b) || decide (b ≤ a)) = true := by
    intro a b
    simp only [Bool.or_eq_true, decide_eq_true_eq]
    omega
  have hpair : List.Pairwise (· ≤ ·) s := by
    have hp := List.sorted_mergeSort htrans htotal counts
    exact hp.imp fun hab => of_decide_eq_true hab
  have hi : i < s.length := by omega
  have hj' : j < s.length := by omega
  rcases Nat.eq_or_lt_of_le hij with rfl | hlt
  · exact le_refl _
  · have hg := List.pairwise_iff_get.mp hpair ⟨i, hi⟩ ⟨j, hj'⟩ hlt
    rw [List.getD_eq_getElem s 0 hi, List.getD_eq_getElem s 0 hj']
    simpa using hg

/-- Easiness rank of a difficulty label, under the order
VERY HARD < HARD < MEDIUM < EASY < VERY EASY. -/
def difficultyRank (s : String) : Nat :=
  if s = "VERY HARD" then 0
  else if s = "HARD" then 1
  else if s = "MEDIUM" then 2
  else if s = "EASY" then 3
  else if s = "VERY EASY" then 4
  else 0

theorem calculate_difficulty_mono (t : Thresholds) (a b : Int) (hab : a ≤ b) :
    difficultyRank (calculate_difficulty a t) ≤
      difficultyRank (calculate_difficulty b t) := by
  unfold calculate_difficulty
  split_ifs <;> first | decide | (exfalso; omega)

/-! ## Claim theorems: difficulty classification -/

/-- C2: with `n` characters and `quintile_size = n div 5`, the thresholds are
the ascending-sorted clue counts at indices `1×..4× quintile_size` clamped to
at most `n - 1`, and classification compares from the easiest side with `≥`;
in particular on counts `[1..10]` the thresholds are `3, 5, 7, 9` and counts
`9, 8, 3, 1` are labeled VERY EASY, EASY, HARD and VERY HARD. -/
theorem claim_C2 (counts : List Int) (h : counts ≠ []) :
    quintileThresholdSpec counts ∧
    calculate_difficulty_thresholds [1, 2, 3, 4, 5, 6, 7, 8, 9, 10] =
      some { hard_min := 3, medium_min := 5, easy_min := 7, very_easy_min := 9 } ∧
    calculate_difficulty 9
      { hard_min := 3, medium_min := 5, easy_min := 7, very_easy_min := 9 } = "VERY EASY" ∧
    calculate_difficulty 8
      { hard_min := 3, medium_min := 5, easy_min := 7, very_easy_min := 9 } = "EASY" ∧
    calculate_difficulty 3
      { hard_min := 3, medium_min := 5, easy_min := 7, very_easy_min := 9 } = "HARD" ∧
    calculate_difficulty 1
      { hard_min := 3, medium_min := 5, easy_min := 7, very_easy_min := 9 } = "VERY HARD" :=
  ⟨calculate_difficulty_thresholds_eq counts h, calculate_difficulty_thresholds_ten,
    by decide, by decide, by decide, by decide⟩

theorem claim_C2_witness :
    (([1, 2, 3, 4, 5, 6, 7, 8, 9, 10] : List Int) ≠ [] ∧
      quintileThresholdSpec [1, 2, 3, 4, 5, 6, 7, 8, 9, 10]) ∧
    calculate_difficulty_thresholds [1, 2, 3, 4, 5, 6, 7, 8, 9, 10] =
      some { hard_min := 3, medium_min := 5, easy_min := 7, very_easy_min := 9 } :=
  ⟨⟨by simp, (claim_C2 [1, 2, 3, 4, 5, 6, 7, 8, 9, 10] (by simp)).1⟩,
    (claim_C2 [1, 2, 3, 4, 5, 6, 7, 8, 9, 10] (by simp)).2.1⟩

/-- C3: whenever the threshold computation returns a value, the four
thresholds are ascending; classification is monotonic (a strictly larger clue
count gets the same or an easier label under
VERY HARD < HARD < MEDIUM < EASY < VERY EASY); and re-running the
computation on the same counts yields the same thresholds and labels. -/
theorem claim_C3 (counts : List Int) (t : Thresholds)
    (h : calculate_difficulty_thresholds counts = some t) :
    (t.hard_min ≤ t.medium_min ∧ t.medium_min ≤ t.easy_min ∧
      t.easy_min ≤ t.very_easy_min) ∧
    (∀ a b : Int, a < b →
      difficultyRank (calculate_difficulty a t) ≤
        difficultyRank (calculate_difficulty b t)) ∧
    calculate_difficulty_thresholds counts = calculate_difficulty_thresholds counts ∧
    ∀ x : Int, calculate_difficulty x t = calculate_difficulty x t := by
  have hne : counts ≠ [] := by
    intro he
    subst he
    rw [calculate_difficulty_thresholds_nil] at h
    exact Option.noConfusion h
  have hL : 1 ≤ counts.length := List.length_pos.mpr hne
  have heq := calculate_difficulty_thresholds_eq counts hne
  unfold quintileThresholdSpec at heq
  rw [heq] at h
  injection h with h2
  subst h2
  refine ⟨⟨?_, ?_, ?_⟩, fun a b hab => calculate_difficulty_mono _ a b (le_of_lt hab),
    rfl, fun x => rfl⟩
  · exact mergeSort_getD_mono counts _ _ (by omega) (by omega)
  · exact mergeSort_getD_mono counts _ _ (by omega) (by omega)
  · exact mergeSort_getD_mono counts _ _ (by omega) (by omega)

theorem claim_C3_witness :
    calculate_difficulty_thresholds [1, 2, 3, 4, 5, 6, 7, 8, 9, 10] =
      some { hard_min := 3, medium_min := 5, easy_min := 7, very_easy_min := 9 } ∧
    ((3 : Int) ≤ 5 ∧ (5 : Int) ≤ 7 ∧ (7 : Int) ≤ 9) ∧
    (∀ a b : Int, a < b →
      difficultyRank (calculate_difficulty a
        { hard_min := 3, medium_min := 5, easy_min := 7, very_easy_min := 9 }) ≤
      difficultyRank (calculate_difficulty b
        { hard_min := 3, medium_min := 5, easy_min := 7, very_easy_min := 9 })) := by
  refine ⟨calculate_difficulty_thresholds_ten, ?_, ?_⟩
  · exact (claim_C3 [1, 2, 3, 4, 5, 6, 7, 8, 9, 10]
      { hard_min := 3, medium_min := 5, easy_min := 7, very_easy_min := 9 }
      calculate_difficulty_thresholds_ten).1
  · exact (claim_C3 [1, 2, 3, 4, 5, 6, 7, 8, 9, 10]
      { hard_min := 3, medium_min := 5, easy_min := 7, very_easy_min := 9 }
      calculate_difficulty_thresholds_ten).2.1

/-- C9: on an empty character dict `analyze_clues_per_character` hands the
empty clue-count list to `_calculate_difficulty_thresholds`, whose clamped
indices are `min 0 (0 - 1) = -1` and whose lookup fails (modelled as `none`);
for a non-empty character dict all four threshold lookups are in bounds and
the whole analysis succeeds. -/
theorem claim_C9 (characters : List Character) (scene_evidence : List SceneEvidence)
    (h : characters ≠ []) :
    (calculate_difficulty_thresholds [] = none ∧
      (([] : List Character).map fun c => totalCluesFor c.name scene_evidence) = [] ∧
      analyze_clues_per_character [] scene_evidence = none) ∧
    ((calculate_difficulty_thresholds
        (characters.map fun c => totalCluesFor c.name scene_evidence)).isSome ∧
      (analyze_clues_per_character characters scene_evidence).isSome) := by
  have hm : (characters.map fun c => totalCluesFor c.name scene_evidence) ≠ [] := by
    simp [h]
  have heq := calculate_difficulty_thresholds_eq _ hm
  unfold quintileThresholdSpec at heq
  refine ⟨⟨calculate_difficulty_thresholds_nil, rfl, ?_⟩, ?_, ?_⟩
  · unfold analyze_clues_per_character
    rw [show (([] : List Character).map fun c => totalCluesFor c.name scene_evidence) =
      ([] : List Int) from rfl, calculate_difficulty_thresholds_nil]
  · rw [heq]
    rfl
  · unfold analyze_clues_per_character
    rw [heq]
    rfl

theorem claim_C9_witness :
    ([mkCharacter "A" none none] ≠ [] ∧
      (calculate_difficulty_thresholds [] = none ∧
        (([] : List Character).map fun c => totalCluesFor c.name []) = [] ∧
        analyze_clues_per_character [] [] = none)) ∧
    ((calculate_difficulty_thresholds
        ([mkCharacter "A" none none].map fun c => totalCluesFor c.name [])).isSome ∧
      (analyze_clues_per_character [mkCharacter "A" none none] []).isSome) :=
  ⟨⟨by simp, (claim_C9 [mkCharacter "A" none none] [] (by simp)).1⟩,
    (claim_C9 [mkCharacter "A" none none] [] (by simp)).2⟩

/-! ## Claim theorems: game-balance checks -/

/-- C6: `check_difficulty_balance` fails exactly when there are zero
EASY + VERY EASY characters or the VERY HARD count exceeds 15% of the total
(embedded exactly as `20 * very_hard > 3 * total`); the two warning
conditions only add warnings and never change the passed flag. -/
theorem claim_C6 (g : DifficultyGroups) :
    ((check_difficulty_balance g).1 = false ↔
      (g.very_easy.length + g.easy.length = 0 ∨
        20 * g.very_hard.length > 3 * (g.very_easy.length + g.easy.length +
          g.medium.length + g.hard.length + g.very_hard.length))) ∧
    (BalanceWarning.fewEntryPoints (g.very_easy.length + g.easy.length) ∈
        (check_difficulty_balance g).2.2 ↔
      g.very_easy.length + g.easy.length < 5) ∧
    (BalanceWarning.fewMedium g.medium.length ∈ (check_difficulty_balance g).2.2 ↔
      5 * g.medium.length < g.very_easy.length + g.easy.length +
        g.medium.length + g.hard.length + g.very_hard.length) := by
  unfold check_difficulty_balance
  dsimp only
  split_ifs <;> simp_all

/-- Invariant of the grouping loop of `check_scenes_have_characters`: every
group in the accumulator keeps a non-empty character list. -/
theorem scenesByNumber_snd_ne_nil (scene_evidence : List SceneEvidence) :
    ∀ p ∈ scenesByNumber scene_evidence, p.2 ≠ [] := by
  unfold scenesByNumber
  suffices h : ∀ (l : List SceneEvidence) (acc : List (Int × List String)),
      (∀ p ∈ acc, p.2 ≠ []) →
      ∀ p ∈ l.foldl
        (fun acc ev =>
          if acc.any fun p => p.1 == ev.scene_number then
            acc.map fun p =>
              if p.1 == ev.scene_number then (p.1, p.2 ++ [ev.character_name]) else p
          else acc ++ [(ev.scene_number, [ev.character_name])])
        acc, p.2 ≠ [] by
    exact h scene_evidence [] (by simp)
  intro l
  induction l with
  | nil =>
    intro acc hacc
    simpa using hacc
  | cons ev rest ih =>
    intro acc hacc
    rw [List.foldl_cons]
    apply ih
    intro p hp
    by_cases hmem : acc.any fun q => q.1 == ev.scene_number
    · rw [if_pos hmem] at hp
      rcases List.mem_map.mp hp with ⟨q, hq, hqe⟩
      by_cases hq1 : q.1 == ev.scene_number
      · rw [if_pos hq1] at hqe
        rw [← hqe]
        simp
      · rw [if_neg hq1] at hqe
        rw [← hqe]
        exact hacc q hq
    · rw [if_neg hmem] at hp
      rcases List.mem_append.mp hp with hpa | hpa
      · exact hacc p hpa
      · simp only [List.mem_singleton] at hpa
        rw [hpa]
        simp


/-- C8: `check_scenes_have_characters` always passes: a scene key is only
created when an evidence record for that scene is appended, so every grouped
scene's character list is non-empty and the failure branch is unreachable. -/
theorem claim_C8 (scene_evidence : List SceneEvidence) :
    check_scenes_have_characters scene_evidence = true := by
  unfold check_scenes_have_characters
  rw [List.isEmpty_iff, List.filter_eq_nil_iff]
  intro p hp
  simp only [List.isEmpty_iff]
  exact scenesByNumber_snd_ne_nil scene_evidence p hp

/-- C10: `check_death_attribution_completeness` never reports the missing
death-scene category: only characters with `is_dead` true are examined and
`is_dead` requires `death_scene` to be present, so the missing-scene name
list is always empty and any failing result carries only the missing-cause
and missing-killer categories. -/
theorem claim_C10 (characters : List Character) :
    missingSceneNames characters = [] ∧
    ∀ names, AttributionIssue.missingScene names ∉
      (check_death_attribution_completeness characters).2 := by
  have hms : missingSceneNames characters = [] := by
    unfold missingSceneNames
    rw [List.map_eq_nil_iff, List.filter_eq_nil_iff]
    intro c hc
    have hd : c.is_dead = true := (List.mem_filter.mp hc).2
    unfold Character.is_dead at hd
    rcases hde : c.death_scene with _ | d
    · rw [hde] at hd
      exact absurd hd (by simp)
    · simp [hde]
  refine ⟨hms, ?_⟩
  intro names hmem
  unfold check_death_attribution_completeness at hmem
  rw [hms] at hmem
  split_ifs at hmem <;> simp_all

theorem maxByCount_aux (l : List (String × Int)) :
    ∀ q : String × Int,
      ∃ mx, l.foldl maxStep (some q) = some mx ∧
        (mx = q ∨ mx ∈ l) ∧ q.2 ≤ mx.2 ∧ ∀ item ∈ l, item.2 ≤ mx.2 := by
  induction l with
  | nil =>
    intro q
    exact ⟨q, rfl, Or.inl rfl, le_refl _, by simp⟩
  | cons p rest ih =>
    intro q
    rw [List.foldl_cons]
    by_cases h : q.2 < p.2
    · have hstep : maxStep (some q) p = some p := by
        simp [maxStep, h]
      rw [hstep]
      obtain ⟨mx, h1, h2, h3, h4⟩ := ih p
      refine ⟨mx, h1, Or.inr ?_, by omega, ?_⟩
      · rcases h2 with h2 | h2
        · rw [h2]
          exact List.mem_cons_self p rest
        · exact List.mem_cons_of_mem p h2
      · intro item hitem
        rcases List.mem_cons.mp hitem with rfl | hi
        · omega
        · exact h4 item hi
    · have hstep : maxStep (some q) p = some q := by
        simp [maxStep, h]
      rw [hstep]
      obtain ⟨mx, h1, h2, h3, h4⟩ := ih q
      refine ⟨mx, h1, ?_, h3, ?_⟩
      · rcases h2 with h2 | h2
        · exact Or.inl h2
        · exact Or.inr (List.mem_cons_of_mem p h2)
      · intro item hitem
        rcases List.mem_cons.mp hitem with rfl | hi
        · omega
        · exact h4 item hi

/-- `max(items, key=count)` on a non-empty list returns an item of the list
whose count bounds every item's count. -/
theorem maxByCount_spec (l : List (String × Int)) (hl : l ≠ []) :
    ∃ mx, maxByCount l = some mx ∧ mx ∈ l ∧ ∀ item ∈ l, item.2 ≤ mx.2 := by
  rcases l with _ | ⟨x, xs⟩
  · exact absurd rfl hl
  · unfold maxByCount
    rw [List.foldl_cons]
    rw [show maxStep none x = some x from rfl]
    obtain ⟨mx, h1, h2, h3, h4⟩ := maxByCount_aux xs x
    refine ⟨mx, h1, ?_, ?_⟩
    · rcases h2 with h2 | h2
      · rw [h2]
        exact List.mem_cons_self x xs
      · exact List.mem_cons_of_mem x h2
    · intro item hitem
      rcases List.mem_cons.mp hitem with rfl | hi
      · exact h3
      · exact h4 item hi

theorem unbalancedFlagFor_eq_of_max (p : String × CharAnalysis)
    (mx : String × Int) (h0 : p.2.total_clues ≠ 0)
    (hmx : maxByCount (clueTypeItems p.2.clue_types) = some mx) :
    unbalancedFlagFor p =
      if 5 * mx.2 > 4 * p.2.total_clues ∧ 5 ≤ p.2.total_clues then
        some { character_name := p.1, max_count := mx.2,
               total := p.2.total_clues, max_type_name := mx.1 }
      else none := by
  unfold unbalancedFlagFor
  simp only [hmx, if_neg h0]

theorem unbalancedFlagFor_name (q : String × CharAnalysis) (f : UnbalancedFlag)
    (h : unbalancedFlagFor q = some f) : f.character_name = q.1 := by
  have h0 : q.2.total_clues ≠ 0 := by
    intro h0
    rw [show unbalancedFlagFor q = none by unfold unbalancedFlagFor; simp [h0]] at h
    exact Option.noConfusion h
  obtain ⟨mx, hmx, -, -⟩ := maxByCount_spec (clueTypeItems q.2.clue_types) (by
    rcases q.2.clue_types with ⟨v, d, c, r, ro⟩
    simp [clueTypeItems])
  rw [unbalancedFlagFor_eq_of_max q mx h0 hmx] at h
  split_ifs at h
  injection h with h2
  rw [← h2]

theorem unbalancedFlagFor_isSome_iff (p : String × CharAnalysis) :
    (∃ f, unbalancedFlagFor p = some f ∧ f.character_name = p.1) ↔
      (5 ≤ p.2.total_clues ∧
        ∃ item ∈ clueTypeItems p.2.clue_types,
          5 * item.2 > 4 * p.2.total_clues) := by
  obtain ⟨mx, hmx, hmem, hmax⟩ := maxByCount_spec (clueTypeItems p.2.clue_types) (by
    rcases p.2.clue_types with ⟨v, d, c, r, ro⟩
    simp [clueTypeItems])
  by_cases h0 : p.2.total_clues = 0
  · have hnone : unbalancedFlagFor p = none := by
      unfold unbalancedFlagFor
      simp [h0]
    constructor
    · rintro ⟨f, hf, -⟩
      rw [hnone] at hf
      exact Option.noConfusion hf
    · rintro ⟨h5, -⟩
      omega
  · rw [unbalancedFlagFor_eq_of_max p mx h0 hmx]
    by_cases hcond : 5 * mx.2 > 4 * p.2.total_clues ∧ 5 ≤ p.2.total_clues
    · rw [if_pos hcond]
      constructor
      · intro _
        exact ⟨hcond.2, mx, hmem, hcond.1⟩
      · intro _
        exact ⟨_, rfl, rfl⟩
    · rw [if_neg hcond]
      constructor
      · rintro ⟨f, hf, -⟩
        exact Option.noConfusion hf
      · rintro ⟨h5, item, hitem, hgt⟩
        refine absurd ⟨?_, h5⟩ hcond
        have := hmax item hitem
        omega

/-- C7: `check_clue_type_diversity` can never fail (its hard-issue list is
never appended to), and a character is flagged as unbalanced exactly when its
total clue count is at least 5 and some single clue category exceeds 80% of
it (embedded exactly as `5 * count > 4 * total`). -/
theorem claim_C7 (clue_analysis : List (String × CharAnalysis))
    (hnd : (clue_analysis.map Prod.fst).Nodup)
    (p : String × CharAnalysis) (hp : p ∈ clue_analysis) :
    (check_clue_type_diversity clue_analysis).1 = true ∧
    ((∃ f ∈ (check_clue_type_diversity clue_analysis).2, f.character_name = p.1) ↔
      (5 ≤ p.2.total_clues ∧
        ∃ item ∈ clueTypeItems p.2.clue_types,
          5 * item.2 > 4 * p.2.total_clues)) := by
  refine ⟨rfl, ?_⟩
  rw [← unbalancedFlagFor_isSome_iff p]
  unfold check_clue_type_diversity
  dsimp only
  simp only [List.mem_filterMap]
  constructor
  · rintro ⟨f, ⟨q, hq, hfq⟩, hname⟩
    have hq1 : f.character_name = q.1 := unbalancedFlagFor_name q f hfq
    have hqp : q = p := List.inj_on_of_nodup_map hnd hq hp (by rw [← hq1, hname])
    subst hqp
    exact ⟨f, hfq, hname⟩
  · rintro ⟨f, hf, hn⟩
    exact ⟨f, ⟨p, hp, hf⟩, hn⟩

/-- A concrete clue-analysis entry: 5 clues, all visual. -/
def sampleEntry : String × CharAnalysis :=
  ("A", { total_clues := 5,
          clue_types := { visual := 5, dialogue := 0, contextual := 0,
                          relationship := 0, role := 0 },
          scenes_with_clues := 1, difficulty := "EASY" })

theorem claim_C7_witness :
    (check_clue_type_diversity [sampleEntry]).1 = true ∧
    ((∃ f ∈ (check_clue_type_diversity [sampleEntry]).2,
        f.character_name = sampleEntry.1) ↔
      (5 ≤ sampleEntry.2.total_clues ∧
        ∃ item ∈ clueTypeItems sampleEntry.2.clue_types,
          5 * item.2 > 4 * sampleEntry.2.total_clues)) :=
  claim_C7 [sampleEntry] (by simp) sampleEntry (by simp)

/-! ## Lemmas about the timeline validator -/

theorem mem_check_timeline_issues (characters : List Character)
    (scene_evidence : List SceneEvidence) (i : TimelineIssue) :
    i ∈ (check_timeline_consistency characters scene_evidence).2 ↔
      ∃ c ∈ characters, i ∈ timelineIssuesFor characters scene_evidence c := by
  unfold check_timeline_consistency
  dsimp only
  simp only [List.mem_flatten, List.mem_map]
  constructor
  · rintro ⟨l, ⟨c, hc, rfl⟩, hi⟩
    exact ⟨c, hc, hi⟩
  · rintro ⟨c, hc, hi⟩
    exact ⟨_, ⟨c, hc, rfl⟩, hi⟩

theorem mem_timelineIssuesFor (characters : List Character)
    (scene_evidence : List SceneEvidence) (c : Character) (i : TimelineIssue) :
    i ∈ timelineIssuesFor characters scene_evidence c ↔
      ∃ d, c.death_scene = some d ∧ 0 < d ∧
        (i ∈ ghostIssuesFor c d scene_evidence ∨
          i ∈ killerIssuesFor characters c d scene_evidence) := by
  rcases hd : c.death_scene with _ | d
  · simp [timelineIssuesFor, Character.is_dead, hd]
  · by_cases hpos : 0 < d
    · simp [timelineIssuesFor, Character.is_dead, hd, hpos, List.mem_append]
    · simp [timelineIssuesFor, Character.is_dead, hd, hpos]

theorem mem_ghostIssuesFor (c : Character) (death_scene : Int)
    (scene_evidence : List SceneEvidence) (i : TimelineIssue) :
    i ∈ ghostIssuesFor c death_scene scene_evidence ↔
      ∃ ev ∈ scene_evidence, ev.character_name = c.name ∧
        death_scene < ev.scene_number ∧ ev.dies_in_this_scene = false ∧
        i = TimelineIssue.ghost c.name ev.scene_number death_scene := by
  unfold ghostIssuesFor
  simp only [List.mem_filterMap, List.mem_filter, beq_iff_eq]
  constructor
  · rintro ⟨ev, ⟨hev, hname⟩, hopt⟩
    by_cases hc : death_scene < ev.scene_number ∧ ev.dies_in_this_scene = false
    · rw [if_pos hc] at hopt
      injection hopt with h2
      exact ⟨ev, hev, hname, hc.1, hc.2, h2.symm⟩
    · rw [if_neg hc] at hopt
      exact Option.noConfusion hopt
  · rintro ⟨ev, hev, hname, hlt, hdies, rfl⟩
    exact ⟨ev, ⟨hev, hname⟩, by rw [if_pos ⟨hlt, hdies⟩]⟩

theorem mem_killerIssuesFor (characters : List Character) (c : Character)
    (death_scene : Int) (scene_evidence : List SceneEvidence) (i : TimelineIssue) :
    i ∈ killerIssuesFor characters c death_scene scene_evidence ↔
      ∃ k, c.killer = some k ∧ k ≠ "" ∧ k ≠ "Accident" ∧
        (¬ ∃ ev ∈ scene_evidence, ev.character_name = k ∧
          ev.scene_number = death_scene) ∧
        (∃ ch ∈ characters, ch.name = k) ∧
        i = TimelineIssue.killerAbsent k c.name death_scene := by
  rcases hk : c.killer with _ | k
  · simp [killerIssuesFor, hk]
  · simp only [killerIssuesFor, hk]
    by_cases hcond : k ≠ "" ∧ k ≠ "Accident"
    · rw [if_pos hcond]
      by_cases habs : (scene_evidence.any fun ev =>
          ev.character_name == k && ev.scene_number == death_scene) = false ∧
          (characters.any fun ch => ch.name == k) = true
      · rw [if_pos habs]
        simp only [List.mem_singleton]
        constructor
        · intro hi
          refine ⟨k, rfl, hcond.1, hcond.2, ?_, ?_, hi⟩
          · intro ⟨ev, hev, hn, hs⟩
            have : (scene_evidence.any fun ev =>
                ev.character_name == k && ev.scene_number == death_scene) = true := by
              rw [List.any_eq_true]
              exact ⟨ev, hev, by simp [hn, hs]⟩
            rw [habs.1] at this
            exact Bool.noConfusion this
          · have := habs.2
            rw [List.any_eq_true] at this
            obtain ⟨ch, hch, hb⟩ := this
            exact ⟨ch, hch, by simpa using hb⟩
        · rintro ⟨k', hk', -, -, -, -, rfl⟩
          injection hk' with he
          rw [← he]
      · rw [if_neg habs]
        simp only [List.not_mem_nil, false_iff]
        rintro ⟨k', hk', -, -, habsent, hknown, rfl⟩
        injection hk' with he
        subst he
        refine habs ⟨?_, ?_⟩
        · rw [Bool.eq_false_iff]
          intro hany
          rw [List.any_eq_true] at hany
          obtain ⟨ev, hev, hb⟩ := hany
          simp only [Bool.and_eq_true, beq_iff_eq] at hb
          exact habsent ⟨ev, hev, hb.1, hb.2⟩
        · rw [List.any_eq_true]
          obtain ⟨ch, hch, he⟩ := hknown
          exact ⟨ch, hch, by simp [he]⟩
    · rw [if_neg hcond]
      simp only [List.not_mem_nil, false_iff]
      rintro ⟨k', hk', hne, hacc, -, -, -⟩
      injection hk' with he
      subst he
      exact hcond ⟨hne, hacc⟩

/-! ## Claim theorems: timeline validator -/

/-- The C5 property for one dead character `c` with death scene `d`: a GHOST
issue naming `c` is reported exactly when some evidence record of `c` lies
strictly after `d` without the death flag, and every reported GHOST issue for
`c` carries `d` and a scene strictly greater than `d` backed by such a
record. -/
def ghostReportAt (characters : List Character)
    (scene_evidence : List SceneEvidence) (c : Character) (d : Int) : Prop :=
  ((∃ s d', TimelineIssue.ghost c.name s d' ∈
      (check_timeline_consistency characters scene_evidence).2) ↔
    ∃ ev ∈ scene_evidence, ev.character_name = c.name ∧ d < ev.scene_number ∧
      ev.dies_in_this_scene = false) ∧
  ∀ s d', TimelineIssue.ghost c.name s d' ∈
      (check_timeline_consistency characters scene_evidence).2 →
    d' = d ∧ d < s ∧ ∃ ev ∈ scene_evidence, ev.character_name = c.name ∧
      ev.scene_number = s ∧ ev.dies_in_this_scene = false

/-- C5: `check_timeline_consistency` reports a GHOST issue for a dead
character exactly when that character has an evidence record strictly after
their death scene with `dies_in_this_scene` false; a record at the death
scene itself is never flagged and neither is a record with the death flag. -/
theorem claim_C5 (characters : List Character)
    (scene_evidence : List SceneEvidence) (c : Character) (d : Int)
    (hnd : (characters.map Character.name).Nodup) (hc : c ∈ characters)
    (hds : c.death_scene = some d) (hpos : 0 < d) :
    ghostReportAt characters scene_evidence c d := by
  have key : ∀ s d', TimelineIssue.ghost c.name s d' ∈
      (check_timeline_consistency characters scene_evidence).2 ↔
      (d' = d ∧ ∃ ev ∈ scene_evidence, ev.character_name = c.name ∧
        ev.scene_number = s ∧ d < s ∧ ev.dies_in_this_scene = false) := by
    intro s d'
    rw [mem_check_timeline_issues]
    constructor
    · rintro ⟨c', hc', hi⟩
      rw [mem_timelineIssuesFor] at hi
      obtain ⟨dd, hdd, hposdd, hg | hkl⟩ := hi
      · rw [mem_ghostIssuesFor] at hg
        obtain ⟨ev, hev, hname, hlt, hdies, heq⟩ := hg
        have hn : c.name = c'.name := by
          injection heq with h1 h2 h3
        have hs : s = ev.scene_number := by
          injection heq with h1 h2 h3
        have hdd' : d' = dd := by
          injection heq with h1 h2 h3
        have hcc : c' = c := List.inj_on_of_nodup_map hnd hc' hc hn.symm
        subst hcc
        rw [hds] at hdd
        injection hdd with hdd2
        subst hdd2
        subst hdd'
        exact ⟨rfl, ev, hev, hname, hs.symm, by omega, hdies⟩
      · rw [mem_killerIssuesFor] at hkl
        obtain ⟨k, -, -, -, -, -, heq⟩ := hkl
        exact TimelineIssue.noConfusion heq
    · rintro ⟨heqd, ev, hev, hname, hscene, hlt, hdies⟩
      rw [heqd]
      refine ⟨c, hc, ?_⟩
      rw [mem_timelineIssuesFor]
      refine ⟨d, hds, hpos, Or.inl ?_⟩
      rw [mem_ghostIssuesFor]
      refine ⟨ev, hev, hname, by omega, hdies, ?_⟩
      rw [hscene]
  constructor
  · constructor
    · rintro ⟨s, d', hmem⟩
      obtain ⟨-, ev, hev, hname, hscene, hlt, hdies⟩ := (key s d').mp hmem
      exact ⟨ev, hev, hname, by omega, hdies⟩
    · rintro ⟨ev, hev, hname, hlt, hdies⟩
      exact ⟨ev.scene_number, d,
        (key ev.scene_number d).mpr ⟨rfl, ev, hev, hname, rfl, hlt, hdies⟩⟩
  · intro s d' hmem
    obtain ⟨hd', ev, hev, hname, hscene, hlt, hdies⟩ := (key s d').mp hmem
    exact ⟨hd', hlt, ev, hev, hname, hscene, hdies⟩

theorem claim_C5_witness :
    ghostReportAt [mkCharacter "G" none (some 3)] [blankEvidence "G" 5]
      (mkCharacter "G" none (some 3)) 3 :=
  claim_C5 [mkCharacter "G" none (some 3)] [blankEvidence "G" 5]
    (mkCharacter "G" none (some 3)) 3 (by simp) (by simp) rfl (by decide)

/-- C4 as stated by the claim: for every dead character whose killer is a
known character name other than the sentinels "Accident"/"Self-inflicted", a
killer-absence TIMELINE ERROR is reported iff the killer has no evidence
record at the victim's death scene.  Refuted below: the code's Python
truthiness test `if character.killer` also silently skips an empty-string
killer name, even when "" is a known character name. -/
def killerAbsenceClaimOriginal : Prop :=
  ∀ (characters : List Character) (scene_evidence : List SceneEvidence)
    (c : Character) (k : String) (d : Int),
    (characters.map Character.name).Nodup → c ∈ characters →
    c.death_scene = some d → 0 < d → c.killer = some k →
    k ≠ "Accident" → k ≠ "Self-inflicted" → (∃ ch ∈ characters, ch.name = k) →
    (TimelineIssue.killerAbsent k c.name d ∈
        (check_timeline_consistency characters scene_evidence).2 ↔
      ¬ ∃ ev ∈ scene_evidence, ev.character_name = k ∧ ev.scene_number = d)

theorem claim_C4_counterexample : ¬ killerAbsenceClaimOriginal := by
  intro h
  have h2 := h [mkCharacter "" none none, mkCharacter "V" (some "") (some 1)] []
    (mkCharacter "V" (some "") (some 1)) "" 1 (by decide)
    (by simp) rfl (by decide) rfl (by decide) (by decide)
    ⟨mkCharacter "" none none, by simp, rfl⟩
  have h3 := h2.mpr (by simp)
  exact absurd h3 (by decide)

/-- The C4 property for one dead character `c` with killer name `k` and death
scene `d`: if `k` is a character name, a killer-absence issue is reported iff
`k` has no evidence record at scene `d`; if `k` is not a character name the
verification is skipped and no such issue is reported. -/
def killerReportAt (characters : List Character)
    (scene_evidence : List SceneEvidence) (c : Character) (k : String)
    (d : Int) : Prop :=
  ((∃ ch ∈ characters, ch.name = k) →
    (TimelineIssue.killerAbsent k c.name d ∈
        (check_timeline_consistency characters scene_evidence).2 ↔
      ¬ ∃ ev ∈ scene_evidence, ev.character_name = k ∧ ev.scene_number = d)) ∧
  ((¬ ∃ ch ∈ characters, ch.name = k) →
    ∀ d', TimelineIssue.killerAbsent k c.name d' ∉
      (check_timeline_consistency characters scene_evidence).2)

/-- C4 (amended): for every dead character whose killer field is set to a
non-empty known character name that is not one of the sentinels
"Accident"/"Self-inflicted", `check_timeline_consistency` reports a
killer-absence TIMELINE ERROR exactly when that killer has no evidence record
at the victim's death scene; when the killer name is not in the character
set, verification is skipped and no error is reported. -/
theorem claim_C4 (characters : List Character)
    (scene_evidence : List SceneEvidence) (c : Character) (k : String) (d : Int)
    (hnd : (characters.map Character.name).Nodup) (hc : c ∈ characters)
    (hds : c.death_scene = some d) (hpos : 0 < d) (hk : c.killer = some k)
    (hne : k ≠ "") (hacc : k ≠ "Accident") (_hself : k ≠ "Self-inflicted") :
    killerReportAt characters scene_evidence c k d := by
  have key : ∀ d'', TimelineIssue.killerAbsent k c.name d'' ∈
      (check_timeline_consistency characters scene_evidence).2 ↔
      (d'' = d ∧
        (¬ ∃ ev ∈ scene_evidence, ev.character_name = k ∧ ev.scene_number = d) ∧
        ∃ ch ∈ characters, ch.name = k) := by
    intro d''
    rw [mem_check_timeline_issues]
    constructor
    · rintro ⟨c', hc', hi⟩
      rw [mem_timelineIssuesFor] at hi
      obtain ⟨dd, hdd, hposdd, hg | hkl⟩ := hi
      · rw [mem_ghostIssuesFor] at hg
        obtain ⟨ev, -, -, -, -, heq⟩ := hg
        exact TimelineIssue.noConfusion heq
      · rw [mem_killerIssuesFor] at hkl
        obtain ⟨k', hk', -, -, habsent, hknown, heq⟩ := hkl
        have hkk : k = k' := by
          injection heq with h1 h2 h3
        have hn : c.name = c'.name := by
          injection heq with h1 h2 h3
        have hdd'' : d'' = dd := by
          injection heq with h1 h2 h3
        have hcc : c' = c := List.inj_on_of_nodup_map hnd hc' hc hn.symm
        subst hcc
        rw [hds] at hdd
        injection hdd with hdd2
        subst hdd2
        subst hdd''
        subst hkk
        exact ⟨rfl, habsent, hknown⟩
    · rintro ⟨heqd, habsent, hknown⟩
      rw [heqd]
      refine ⟨c, hc, ?_⟩
      rw [mem_timelineIssuesFor]
      refine ⟨d, hds, hpos, Or.inr ?_⟩
      rw [mem_killerIssuesFor]
      exact ⟨k, hk, hne, hacc, habsent, hknown, rfl⟩
  constructor
  · intro hknown
    constructor
    · intro hmem
      exact ((key d).mp hmem).2.1
    · intro habsent
      exact (key d).mpr ⟨rfl, habsent, hknown⟩
  · intro hunknown d' hmem
    exact hunknown ((key d').mp hmem).2.2

theorem claim_C4_witness :
    killerReportAt
      [mkCharacter "Bob" none none, mkCharacter "V" (some "Bob") (some 1)]
      [] (mkCharacter "V" (some "Bob") (some 1)) "Bob" 1 :=
  claim_C4 [mkCharacter "Bob" none none, mkCharacter "V" (some "Bob") (some 1)]
    [] (mkCharacter "V" (some "Bob") (some 1)) "Bob" 1 (by decide) (by simp)
    rfl (by decide) rfl (by decide) (by decide) (by decide)

/-! ## Claim theorems: death-scene check -/

theorem deathSceneOkFor_iff (scene_evidence : List SceneEvidence) (c : Character) :
    deathSceneOkFor scene_evidence c = true ↔
      ∀ d, c.death_scene = some d → 0 < d →
        ((∃ ev ∈ scene_evidence, ev.scene_number = d) ∧
          ∃ ev0 evs, (scene_evidence.filter fun ev =>
              ev.character_name == c.name && ev.dies_in_this_scene) = ev0 :: evs ∧
            ev0.scene_number = d) := by
  rcases hd : c.death_scene with _ | d
  · simp [deathSceneOkFor, hd]
  · simp only [deathSceneOkFor, hd]
    by_cases hpos : d ≤ 0
    · rw [if_pos hpos]
      constructor
      · rintro - d' hd' hpos'
        injection hd' with he
        omega
      · rintro -
        rfl
    · rw [if_neg hpos]
      rw [Bool.and_eq_true]
      constructor
      · rintro ⟨hany, hmatch⟩ d' hd' -
        injection hd' with he
        subst he
        constructor
        · rw [List.any_eq_true] at hany
          obtain ⟨ev, hev, hb⟩ := hany
          exact ⟨ev, hev, by simpa using hb⟩
        · rcases hf : scene_evidence.filter (fun ev =>
              ev.character_name == c.name && ev.dies_in_this_scene) with _ | ⟨ev0, evs⟩
          · rw [hf] at hmatch
            exact absurd hmatch (by simp)
          · rw [hf] at hmatch
            exact ⟨ev0, evs, hf, by simpa using hmatch⟩
      · intro hR
        obtain ⟨⟨ev, hev, hevs⟩, ev0, evs, hf, he0⟩ := hR d rfl (by omega)
        constructor
        · rw [List.any_eq_true]
          exact ⟨ev, hev, by simpa using hevs⟩
        · rw [hf]
          simpa using he0

/-- C1 as stated by the claim: the check passes iff every dead character has
its death scene among the evidence scene numbers, exactly one evidence record
with the death flag, and that record at the death scene.  Refuted below: the
code never counts the death records — it only inspects the first one — so
duplicated death records still pass. -/
def deathSceneClaimOriginal : Prop :=
  ∀ (characters : List Character) (scene_evidence : List SceneEvidence),
    check_every_death_has_a_scene characters scene_evidence = true ↔
      ∀ c ∈ characters, ∀ d, c.death_scene = some d → 0 < d →
        ((∃ ev ∈ scene_evidence, ev.scene_number = d) ∧
          (scene_evidence.countP fun ev =>
            ev.character_name == c.name && ev.dies_in_this_scene) = 1 ∧
          ∀ ev ∈ scene_evidence, ev.character_name = c.name →
            ev.dies_in_this_scene = true → ev.scene_number = d)

/-- A death-flagged evidence record for Alice in scene 3. -/
def aliceDeathRecord : SceneEvidence :=
  { blankEvidence "Alice" 3 with dies_in_this_scene := true }

theorem claim_C1_counterexample : ¬ deathSceneClaimOriginal := by
  intro h
  have h2 := (h [mkCharacter "Alice" none (some 3)]
    [aliceDeathRecord, aliceDeathRecord]).mp (by decide)
  have h3 := h2 (mkCharacter "Alice" none (some 3)) (by simp) 3 rfl (by decide)
  exact absurd h3.2.1 (by decide)

/-- C1 (amended): `check_every_death_has_a_scene` passes iff for every dead
character (a) the death scene number occurs among the evidence scene numbers,
(b) at least one evidence record for the character has the death flag, and
(c) the first such record (in evidence order) has `scene_number` equal to the
character's `death_scene`; uniqueness of the death record is not enforced. -/
theorem claim_C1 (characters : List Character)
    (scene_evidence : List SceneEvidence) :
    check_every_death_has_a_scene characters scene_evidence = true ↔
      ∀ c ∈ characters, ∀ d, c.death_scene = some d → 0 < d →
        ((∃ ev ∈ scene_evidence, ev.scene_number = d) ∧
          ∃ ev0 evs, (scene_evidence.filter fun ev =>
              ev.character_name == c.name && ev.dies_in_this_scene) = ev0 :: evs ∧
            ev0.scene_number = d) := by
  unfold check_every_death_has_a_scene
  rw [List.all_eq_true]
  constructor
  · intro h c hc
    exact (deathSceneOkFor_iff scene_evidence c).mp (h c hc)
  · intro h c hc
    exact (deathSceneOkFor_iff scene_evidence c).mpr (h c hc)

end MysteryValidator
